import Mathlib

/-!
Verification of the quota-manager quota accounting engine against its
natural-language specification.  The Go source (package `services`:
`quota_check_permission.go` and the star-check / user-conversion parts)
is shallowly embedded below: amounts (Go `float64` decimal scalars) are
rationals, timestamps (second precision after `Truncate(time.Second)`)
are integers of seconds, database tables are lists of rows, the AiGateway
counters are functions from user id to rationals, and fallible external
calls (storage, gateway, voucher codec) are oracle fields of an
environment record.  Each public operation becomes a pure function from
environment and state to result and state.
-/

/-! ### Base data model (internal/models) -/

/-- models.StatusValid -/
def StatusValid : String := "VALID"

/-- models.StatusExpired -/
def StatusExpired : String := "EXPIRED"

/-- models.OperationRecharge -/
def OperationRecharge : String := "RECHARGE"

/-- models.OperationTransferOut -/
def OperationTransferOut : String := "TRANSFER_OUT"

/-- models.OperationTransferIn -/
def OperationTransferIn : String := "TRANSFER_IN"

/-- models.TargetTypeUser -/
def TargetTypeUser : String := "user"

/-- models.TargetTypeDepartment -/
def TargetTypeDepartment : String := "department"

/-- A `models.Quota` row: one quota lot. -/
structure Quota where
  userID : String
  amount : ℚ
  expiryDate : ℤ
  status : String
deriving DecidableEq, Repr

/-- A `QuotaDetailItem` of the `GetUserQuota` response. -/
structure QuotaDetailItem where
  amount : ℚ
  expiryDate : ℤ
deriving DecidableEq, Repr

/-- The `QuotaInfo` response of `GetUserQuota`. -/
structure QuotaInfo where
  totalQuota : ℚ
  usedQuota : ℚ
  quotaList : List QuotaDetailItem
deriving DecidableEq, Repr

/-! ### C1: GetUserQuota net-available view

`GetUserQuota` reads `total` and `used` from the gateway, reads the
user's VALID lots ordered by `expiry_date ASC`, and deducts `used`
from the earliest-expiring lots first. -/

/-- Embedding of the lot-deduction loop of `QuotaService.GetUserQuota`
(`for _, quota := range quotas` with `remainingUsed`). -/
def quotaListView : ℚ → List Quota → List QuotaDetailItem
  | _, [] => []
  | remainingUsed, q :: qs =>
    if remainingUsed ≤ 0 then
      ⟨q.amount, q.expiryDate⟩ :: quotaListView remainingUsed qs
    else if q.amount > remainingUsed then
      ⟨q.amount - remainingUsed, q.expiryDate⟩ :: quotaListView 0 qs
    else
      quotaListView (remainingUsed - q.amount) qs

/-- Embedding of `QuotaService.GetUserQuota`.  The two gateway reads are
passed as `Option` values (`none` = gateway failure); `lots` is the result
of the DB query for the user's VALID lots ordered by expiry ascending. -/
def GetUserQuota (totalRes usedRes : Option ℚ) (lots : List Quota) : Option QuotaInfo :=
  match totalRes with
  | none => none
  | some totalQuota =>
    match usedRes with
    | none => none
    | some usedQuota => some ⟨totalQuota, usedQuota, quotaListView usedQuota lots⟩

/-- Modelled from the spec's words for C1: the net-available view deducts
`used` from the earliest-expiring lots first; each lot is emitted with
remaining amount `max 0 (amount - debt)` where `debt` is the part of `used`
not consumed by earlier lots, and fully consumed lots are omitted. -/
def specNetAvailableView : ℚ → List Quota → List QuotaDetailItem
  | _, [] => []
  | debt, q :: qs =>
    if 0 < max 0 (q.amount - debt) then
      ⟨max 0 (q.amount - debt), q.expiryDate⟩ :: specNetAvailableView (max 0 (debt - q.amount)) qs
    else specNetAvailableView (max 0 (debt - q.amount)) qs

/-! ### C2: ExpireQuotas

State touched by `ExpireQuotas`: the quota table and the gateway's
per-user total/used counters.  The embedding below is the success path
(every storage and gateway call succeeds); any failure rolls the whole
sweep back, so the claim "completes without error" conditions on it. -/

/-- System state seen by `ExpireQuotas`. -/
structure ExpireState where
  quotas : List Quota
  gwTotal : String → ℚ
  gwUsed : String → ℚ

/-- The `WHERE status = VALID AND expiry_date < now` predicate. -/
def isExpiredLot (now : ℤ) (q : Quota) : Bool :=
  q.status == StatusValid && decide (q.expiryDate < now)

/-- `SELECT COALESCE(SUM(amount), 0) WHERE user_id = ? AND status = VALID`. -/
def validSumFor (userID : String) (quotas : List Quota) : ℚ :=
  ((quotas.filter (fun q => q.userID == userID && q.status == StatusValid)).map
    (fun q => q.amount)).sum

/-- The per-user reconciliation step of `ExpireQuotas`: fetch total and used
from the gateway, reset used with `addUsed(u, -used)`, then adjust total by
`validSum - total` (the Go code computes `newTotalQuota = validQuota` in both
branches of its `if`). -/
def expireUserStep (st : ExpireState) (userID : String) : ExpireState :=
  let validQuotaSum := validSumFor userID st.quotas
  let totalQuota := st.gwTotal userID
  let usedQuota := st.gwUsed userID
  let st1 : ExpireState :=
    { st with gwUsed := fun v => if v = userID then st.gwUsed v + (-usedQuota) else st.gwUsed v }
  let newTotalQuota := validQuotaSum
  let deltaQuota := newTotalQuota - totalQuota
  { st1 with gwTotal := fun v => if v = userID then st1.gwTotal v + deltaQuota else st1.gwTotal v }

/-- Embedding of `QuotaService.ExpireQuotas` (success path).  Finds the
expired-but-valid lots; if there are none it returns at once.  Otherwise it
marks them EXPIRED and reconciles the gateway for each affected user
(the keys of `userQuotaMap`). -/
def ExpireQuotas (now : ℤ) (st : ExpireState) : ExpireState :=
  let expiredQuotas := st.quotas.filter (isExpiredLot now)
  if expiredQuotas.isEmpty then st
  else
    let affectedUsers := (expiredQuotas.map (fun q => q.userID)).dedup
    let quotas' := st.quotas.map
      (fun q => if isExpiredLot now q then { q with status := StatusExpired } else q)
    affectedUsers.foldl expireUserStep { st with quotas := quotas' }

/-! ### C3 / C4 / C6: TransferIn

`TransferIn` always returns a response (Go's error return is always nil);
the embedding keeps the `(response, error)` shape as `Except`.  Storage
and gateway outcomes that the code handles are oracle fields of
`TransferInEnv`; the voucher codec is the oracle `decodeVoucher`. -/

/-- Transfer status strings (`type TransferStatus string`). -/
def TransferStatusSuccess : String := "SUCCESS"

/-- `TransferStatusPartialSuccess` constant. -/
def TransferStatusPartSuccess : String := "PARTIAL_SUCCESS"

/-- `TransferStatusFailed` constant. -/
def TransferStatusFailed : String := "FAILED"

/-- `TransferStatusAlreadyRedeemed` constant. -/
def TransferStatusAlreadyRedeemed : String := "ALREADY_REDEEMED"

/-- `TransferFailureReasonExpired` constant. -/
def TransferFailureReasonExpired : String := "EXPIRED"

/-- `TransferFailureReasonPending` constant. -/
def TransferFailureReasonPending : String := "PENDING"

/-- A `VoucherQuotaItem` of the decoded voucher payload. -/
structure VoucherQuotaItem where
  amount : ℚ
  expiryDate : ℤ
deriving DecidableEq, Repr

/-- The decoded `VoucherData` payload. -/
structure VoucherData where
  giverID : String
  giverName : String
  giverPhone : String
  giverGithub : String
  giverGithubStar : String
  receiverID : String
  quotaList : List VoucherQuotaItem
deriving DecidableEq, Repr

/-- `models.AuthUser` (fields used by the quota service). -/
structure AuthUser where
  id : String
  name : String
  phone : String
  github : String
deriving DecidableEq, Repr

/-- `TransferInRequest`. -/
structure TransferInRequest where
  voucherCode : String
deriving DecidableEq, Repr

/-- A `TransferQuotaResult` per voucher item. -/
structure TransferQuotaResult where
  amount : ℚ
  expiryDate : ℤ
  isExpired : Bool
  success : Bool
  failureReason : Option String
deriving DecidableEq, Repr

/-- `TransferInResponse`.  Go zero values stand in for fields a return
site leaves unset. -/
structure TransferInResponse where
  giverID : String := ""
  giverName : String := ""
  giverPhone : String := ""
  giverGithub : String := ""
  receiverID : String := ""
  quotaList : List TransferQuotaResult := []
  voucherCode : String := ""
  operation : String := ""
  amount : ℚ := 0
  status : String := ""
  message : String := ""
deriving DecidableEq, Repr

/-- Oracle environment of `TransferIn`: the voucher codec, the
`voucher_redemption` table (`(voucher_code, receiver_id)` rows), the quota
table, per-item storage outcomes and the remaining fallible calls. -/
structure TransferInEnv where
  decodeVoucher : String → Option VoucherData
  redemptions : List (String × String)
  quotas : List Quota
  createRedemptionOk : Bool
  createQuotaOk : ℕ → Bool
  updateQuotaOk : ℕ → Bool
  marshalOk : Bool
  createAuditOk : Bool
  gatewayOk : Bool
  now : ℤ

/-- Replace the first row satisfying `p` by its image under `f`
(a GORM update through the primary key of the row `First` returned). -/
def updateFirstQuota (l : List Quota) (p : Quota → Bool) (f : Quota → Quota) : List Quota :=
  match l with
  | [] => []
  | q :: qs => if p q then f q :: qs else q :: updateFirstQuota qs p f

/-- Accumulator of the per-item loop of `TransferIn`. -/
structure TransferInLoopState where
  quotas : List Quota
  totalAmount : ℚ
  successCount : ℕ
  results : List TransferQuotaResult
  earliestExpiryDate : ℤ
  hasValidQuota : Bool

/-- One iteration of the `for i, quotaItem := range voucherData.QuotaList`
loop of `TransferIn`: expired items are marked; valid items are credited by
creating or updating the receiver's lot at that expiry, with per-item
storage failure downgraded to `PENDING`. -/
def transferInItemStep (env : TransferInEnv) (receiverID : String) (idx : ℕ)
    (st : TransferInLoopState) (item : VoucherQuotaItem) : TransferInLoopState :=
  let isExpired : Bool := decide (item.expiryDate < env.now)
  let base : TransferQuotaResult :=
    ⟨item.amount, item.expiryDate, isExpired, false, none⟩
  if isExpired then
    { st with results := st.results ++ [{ base with failureReason := some TransferFailureReasonExpired }] }
  else
    let track : TransferInLoopState → TransferInLoopState := fun s =>
      if ¬ s.hasValidQuota ∨ item.expiryDate < s.earliestExpiryDate then
        { s with earliestExpiryDate := item.expiryDate, hasValidQuota := true }
      else s
    match st.quotas.find? (fun q =>
        q.userID == receiverID && q.expiryDate == item.expiryDate && q.status == StatusValid) with
    | none =>
      if env.createQuotaOk idx then
        track { st with
          quotas := st.quotas ++ [⟨receiverID, item.amount, item.expiryDate, StatusValid⟩],
          totalAmount := st.totalAmount + item.amount,
          successCount := st.successCount + 1,
          results := st.results ++ [{ base with success := true }] }
      else
        { st with results := st.results ++ [{ base with failureReason := some TransferFailureReasonPending }] }
    | some existing =>
      if env.updateQuotaOk idx then
        track { st with
          quotas := updateFirstQuota st.quotas
            (fun q => q.userID == receiverID && q.expiryDate == item.expiryDate &&
              q.status == StatusValid)
            (fun q => { q with amount := existing.amount + item.amount }),
          totalAmount := st.totalAmount + item.amount,
          successCount := st.successCount + 1,
          results := st.results ++ [{ base with success := true }] }
      else
        { st with results := st.results ++ [{ base with failureReason := some TransferFailureReasonPending }] }

/-- The whole item loop of `TransferIn`. -/
def transferInLoop (env : TransferInEnv) (receiverID : String)
    (items : List VoucherQuotaItem) : TransferInLoopState :=
  (items.enum.foldl (fun st p => transferInItemStep env receiverID p.1 st p.2)
    ⟨env.quotas, 0, 0, [], 0, false⟩)

/-- Number of expired items among the loop results
(the `expiredCount` recount after `tx.Commit`). -/
def expiredCountOf (results : List TransferQuotaResult) : ℕ :=
  (results.filter (fun r => r.isExpired)).length

/-- Embedding of `QuotaService.TransferIn`.  Returns what the Go function
returns: a response and a nil error on every path (so the `Except` is
always `.ok`). -/
def TransferIn (env : TransferInEnv) (receiver : AuthUser) (req : TransferInRequest) :
    Except String TransferInResponse :=
  match env.decodeVoucher req.voucherCode with
  | none => .ok { status := TransferStatusFailed, message := "Invalid voucher code" }
  | some voucherData =>
    if voucherData.receiverID ≠ receiver.id then
      .ok { status := TransferStatusFailed, message := "Voucher is not for this user" }
    else if env.redemptions.any (fun r => r.1 == req.voucherCode) then
      .ok { giverID := voucherData.giverID, giverName := voucherData.giverName,
            giverPhone := voucherData.giverPhone, giverGithub := voucherData.giverGithub,
            receiverID := receiver.id, voucherCode := req.voucherCode,
            operation := OperationTransferIn, status := TransferStatusAlreadyRedeemed,
            message := "Voucher has already been redeemed" }
    else if ¬ env.createRedemptionOk then
      .ok { status := TransferStatusFailed, message := "Failed to record voucher redemption" }
    else
      let loopOut := transferInLoop env receiver.id voucherData.quotaList
      if loopOut.hasValidQuota ∧ ¬ env.marshalOk then
        .ok { status := TransferStatusFailed, message := "Failed to marshal audit details" }
      else if loopOut.hasValidQuota ∧ ¬ env.createAuditOk then
        .ok { status := TransferStatusFailed, message := "Failed to create audit record" }
      else if 0 < loopOut.totalAmount ∧ ¬ env.gatewayOk then
        .ok { status := TransferStatusFailed, message := "Failed to update AiGateway quota" }
      else
        let totalQuotas := voucherData.quotaList.length
        let expiredCount := expiredCountOf loopOut.results
        let status :=
          if loopOut.successCount = 0 then TransferStatusFailed
          else if loopOut.successCount = totalQuotas then TransferStatusSuccess
          else TransferStatusPartSuccess
        let message :=
          if loopOut.successCount = 0 then "All quota transfers failed"
          else if loopOut.successCount = totalQuotas then
            "All quota transfers completed successfully"
          else if 0 < loopOut.successCount ∧ 0 < expiredCount then
            toString loopOut.successCount ++ " of " ++ toString totalQuotas ++
              " quota transfers completed successfully, " ++ toString expiredCount ++ " expired"
          else
            toString loopOut.successCount ++ " of " ++ toString totalQuotas ++
              " quota transfers completed successfully"
        .ok { giverID := voucherData.giverID, giverName := voucherData.giverName,
              giverPhone := voucherData.giverPhone, giverGithub := voucherData.giverGithub,
              receiverID := receiver.id, quotaList := loopOut.results,
              voucherCode := req.voucherCode, operation := OperationTransferIn,
              amount := loopOut.totalAmount, status := status, message := message }

/-- Status of a `TransferIn` result (`""` would mean an error return,
which the code never produces). -/
def respStatus : Except String TransferInResponse → String
  | .ok r => r.status
  | .error _ => ""

/-- Message of a `TransferIn` result. -/
def respMessage : Except String TransferInResponse → String
  | .ok r => r.message
  | .error _ => ""

/-! ### C5: TransferOut

`TransferOut` validates availability before any mutation; every error
path returns with the transaction rolled back, leaving the state as it
was.  The gateway `used` read, the star-check config, the giver's
starred-repos column and the voucher codec are environment fields. -/

/-- A `TransferQuotaItem` of a transfer request. -/
structure TransferQuotaItem where
  amount : ℚ
  expiryDate : ℤ
deriving DecidableEq, Repr

/-- `TransferOutRequest`. -/
structure TransferOutRequest where
  receiverID : String
  quotaList : List TransferQuotaItem
deriving DecidableEq, Repr

/-- `TransferOutResponse`. -/
structure TransferOutResponse where
  voucherCode : String
  relatedUser : String
  operation : String
  quotaList : List TransferQuotaItem
deriving DecidableEq, Repr

/-- A `models.QuotaAudit` row (fields written by the engine). -/
structure QuotaAudit where
  userID : String
  amount : ℚ
  operation : String
  voucherCode : String
  relatedUser : String
  strategyName : String
  expiryDate : ℤ
deriving DecidableEq, Repr

/-- The error taxonomy of `TransferOut` (each constructor is one
`return nil, err` site of the Go function). -/
inductive TransferOutErr where
  | validationFailed (msg : String)
  | getUsedFailed
  | starRequired (repo : String)
  | quotaNotFound (expiryDate : ℤ)
  | insufficientAvailable (expiryDate : ℤ) (haveAmt needAmt : ℚ)
  | insufficientTotal (expiryDate : ℤ) (haveAmt needAmt : ℚ)
  | storageError (msg : String)
  | gatewayFailed
deriving DecidableEq, Repr

/-- State read and written by `TransferOut`. -/
structure TransferOutState where
  quotas : List Quota
  audits : List QuotaAudit
  gwTotal : String → ℚ

/-- Oracle environment of `TransferOut`. -/
structure TransferOutEnv where
  getUsedOk : Bool
  usedQuota : ℚ
  githubStarCheckEnabled : Bool
  requiredRepo : String
  giverGithubStar : String
  genVoucher : Option String
  updateOk : ℕ → Bool
  deleteOk : ℕ → Bool
  marshalOk : Bool
  createAuditOk : Bool
  gatewayOk : Bool

/-- Insertion into a list kept sorted by expiry date
(the `ORDER BY expiry_date ASC` of the availability query). -/
def insertByExpiry (q : Quota) : List Quota → List Quota
  | [] => [q]
  | r :: rs => if q.expiryDate ≤ r.expiryDate then q :: r :: rs else r :: insertByExpiry q rs

/-- Sort a quota list by expiry date ascending. -/
def sortByExpiry (l : List Quota) : List Quota := l.foldr insertByExpiry []

/-- The giver's VALID lots, ordered by expiry date ascending. -/
def giverValidQuotas (giverID : String) (quotas : List Quota) : List Quota :=
  sortByExpiry (quotas.filter (fun q => q.userID == giverID && q.status == StatusValid))

/-- One iteration of the map-building loop of `TransferOut`: compute
`availableFromThisQuota` from `remainingUsed` and accumulate it under the
lot's expiry date (`quotaAvailabilityMap[dateKey] += ...`; a Go map read of
a missing key yields 0 and the assignment creates the key). -/
def availStep (acc : (ℤ → Option ℚ) × ℚ) (q : Quota) : (ℤ → Option ℚ) × ℚ :=
  let m := acc.1
  let remainingUsed := acc.2
  let p : ℚ × ℚ :=
    if remainingUsed ≤ 0 then (q.amount, remainingUsed)
    else if q.amount > remainingUsed then (q.amount - remainingUsed, 0)
    else (0, remainingUsed - q.amount)
  (fun k => if k = q.expiryDate then some ((m q.expiryDate).getD 0 + p.1) else m k, p.2)

/-- The `quotaAvailabilityMap` of `TransferOut` (`none` = key absent). -/
def quotaAvailabilityMap (usedQuota : ℚ) (sortedQuotas : List Quota) : ℤ → Option ℚ :=
  (sortedQuotas.foldl availStep (fun _ => none, usedQuota)).1

/-- The availability map `TransferOut` computes for a giver in a state. -/
def availMapOf (env : TransferOutEnv) (giverID : String) (st : TransferOutState) : ℤ → Option ℚ :=
  quotaAvailabilityMap env.usedQuota (giverValidQuotas giverID st.quotas)

/-- `SELECT COALESCE(SUM(amount), 0) WHERE user_id AND expiry_date AND status = VALID`. -/
def totalQuotaAt (giverID : String) (expiryDate : ℤ) (quotas : List Quota) : ℚ :=
  ((quotas.filter (fun q =>
    q.userID == giverID && q.expiryDate == expiryDate && q.status == StatusValid)).map
    (fun q => q.amount)).sum

/-- The validation loop of `TransferOut` over the requested items: a missing
key fails with not-found, `available < amount` fails with the first
insufficiency error, and the in-transaction sum check fails with the second;
the first failing item decides the error. -/
def validateQuotaList (giverID : String) (avail : ℤ → Option ℚ) (quotas : List Quota) :
    List TransferQuotaItem → Option TransferOutErr
  | [] => none
  | item :: rest =>
    match avail item.expiryDate with
    | none => some (.quotaNotFound item.expiryDate)
    | some available =>
      if available < item.amount then
        some (.insufficientAvailable item.expiryDate available item.amount)
      else
        let t := totalQuotaAt giverID item.expiryDate quotas
        if t < item.amount then some (.insufficientTotal item.expiryDate t item.amount)
        else validateQuotaList giverID avail quotas rest

/-- The star-check of `TransferOut`: split the giver's starred projects on
commas, trim each, and compare with the trimmed required repo. -/
def starCheckPassed (env : TransferOutEnv) : Bool :=
  ((env.giverGithubStar.splitOn ",").map (fun s => s.trim)).contains env.requiredRepo.trim

/-- The reservation loop of `TransferOut`: per item, decrement every
matching VALID row by the item amount, then delete the rows of that key
whose amount dropped to `≤ 0`; either storage call may fail. -/
def applyTransferOutItems (env : TransferOutEnv) (giverID : String) :
    List TransferQuotaItem → ℕ → List Quota → Except TransferOutErr (List Quota)
  | [], _, quotas => .ok quotas
  | item :: rest, idx, quotas =>
    if env.updateOk idx then
      let updated := quotas.map (fun q =>
        if q.userID == giverID && q.expiryDate == item.expiryDate && q.status == StatusValid then
          { q with amount := q.amount - item.amount }
        else q)
      if env.deleteOk idx then
        let cleaned := updated.filter (fun q =>
          ¬ (q.userID == giverID && q.expiryDate == item.expiryDate &&
             q.status == StatusValid && decide (q.amount ≤ 0)))
        applyTransferOutItems env giverID rest (idx + 1) cleaned
      else .error (.storageError "failed to delete zero quota records")
    else .error (.storageError "failed to update quota")

/-- The earliest expiry date of the requested items
(`if i == 0 || item.ExpiryDate.Before(earliestExpiryDate)`). -/
def earliestExpiryOf (items : List TransferQuotaItem) : ℤ :=
  match items with
  | [] => 0
  | it :: rest => rest.foldl (fun e i => if i.expiryDate < e then i.expiryDate else e) it.expiryDate

/-- Embedding of `QuotaService.TransferOut`. -/
def TransferOut (env : TransferOutEnv) (giver : AuthUser) (req : TransferOutRequest)
    (st : TransferOutState) : Except TransferOutErr TransferOutResponse × TransferOutState :=
  if req.receiverID = "" then
    (.error (.validationFailed "receiver_id cannot be empty"), st)
  else if ¬ env.getUsedOk then (.error .getUsedFailed, st)
  else
    let avail := availMapOf env giver.id st
    if env.githubStarCheckEnabled ∧ ¬ starCheckPassed env then
      (.error (.starRequired env.requiredRepo.trim), st)
    else
      match validateQuotaList giver.id avail st.quotas req.quotaList with
      | some e => (.error e, st)
      | none =>
        match env.genVoucher with
        | none => (.error (.storageError "failed to generate voucher"), st)
        | some voucherCode =>
          match applyTransferOutItems env giver.id req.quotaList 0 st.quotas with
          | .error e => (.error e, st)
          | .ok quotas' =>
            let cleanReceiverID := req.receiverID.trim
            let totalAmount := (req.quotaList.map (fun i => i.amount)).sum
            let earliest := earliestExpiryOf req.quotaList
            if ¬ env.marshalOk then
              (.error (.storageError "failed to marshal audit details"), st)
            else if ¬ env.createAuditOk then
              (.error (.storageError "failed to create audit record"), st)
            else if ¬ env.gatewayOk then (.error .gatewayFailed, st)
            else
              (.ok ⟨voucherCode, cleanReceiverID, OperationTransferOut, req.quotaList⟩,
               { quotas := quotas',
                 audits := st.audits ++
                   [⟨giver.id, -totalAmount, OperationTransferOut, voucherCode,
                     cleanReceiverID, "", earliest⟩],
                 gwTotal := fun v =>
                   if v = giver.id then st.gwTotal v + (-totalAmount) else st.gwTotal v })

/-! ### C7: MergeQuotaRecords -/

/-- The `GROUP BY user_id, expiry_date, status` key of a lot. -/
def quotaKey (q : Quota) : String × ℤ × String := (q.userID, q.expiryDate, q.status)

/-- `COUNT(*)` of a group in a quota table. -/
def keyCount (lots : List Quota) (k : String × ℤ × String) : ℕ :=
  (lots.filter (fun q => quotaKey q = k)).length

/-- `SUM(amount)` of a group in a quota table. -/
def keySum (lots : List Quota) (k : String × ℤ × String) : ℚ :=
  ((lots.filter (fun q => quotaKey q = k)).map (fun q => q.amount)).sum

/-- The groups returned by the `HAVING COUNT(*) > 1` query. -/
def dupKeys (lots : List Quota) : List (String × ℤ × String) :=
  ((lots.map quotaKey).dedup).filter (fun k => 1 < keyCount lots k)

/-- One group step of `MergeQuotaRecords`: delete every matching lot, then
insert a single merged lot only if the group's scanned total is strictly
positive.  The total comes from the initial group query (`origLots`). -/
def mergeGroupStep (origLots : List Quota) (cur : List Quota) (k : String × ℤ × String) :
    List Quota :=
  let deleted := cur.filter (fun q => quotaKey q ≠ k)
  if 0 < keySum origLots k then deleted ++ [⟨k.1, keySum origLots k, k.2.1, k.2.2⟩] else deleted

/-- Embedding of `QuotaService.MergeQuotaRecords` (success path). -/
def MergeQuotaRecords (lots : List Quota) : List Quota :=
  (dupKeys lots).foldl (mergeGroupStep lots) lots

/-! ### C8: AddQuotaForStrategy expiry rule

`AddQuotaForStrategy` computes its expiry with Go `time.Date`, whose
month/day arguments may lie outside their ranges (`now.Month()+1` with
day 0 is the last day of the current month).  The embedding maps a civil
datetime to a count of seconds (proleptic Gregorian, seconds from the
start of year 1, matching Go's absolute-time computation; the timezone
offset is common to all quantities and cancels in differences). -/

/-- A Go `time.Time` truncated to the second, split into civil fields
in its location. -/
structure GoTime where
  year : ℕ
  month : ℕ
  day : ℕ
  hour : ℕ
  minute : ℕ
  second : ℕ
deriving DecidableEq, Repr

/-- Gregorian leap-year rule. -/
def isLeapYear (y : ℕ) : Prop := (y % 4 = 0 ∧ y % 100 ≠ 0) ∨ y % 400 = 0

instance (y : ℕ) : Decidable (isLeapYear y) := by unfold isLeapYear; infer_instance

/-- Length of month `m` of year `y`. -/
def daysInMonth (y m : ℕ) : ℕ :=
  match m with
  | 1 => 31 | 2 => if isLeapYear y then 29 else 28 | 3 => 31 | 4 => 30
  | 5 => 31 | 6 => 30 | 7 => 31 | 8 => 31 | 9 => 30 | 10 => 31 | 11 => 30 | 12 => 31
  | _ => 31

/-- Days in year `y` strictly before month `m`. -/
def daysBeforeMonth (y m : ℕ) : ℕ :=
  (match m with
   | 1 => 0 | 2 => 31 | 3 => 59 | 4 => 90 | 5 => 120 | 6 => 151 | 7 => 181
   | 8 => 212 | 9 => 243 | 10 => 273 | 11 => 304 | 12 => 334 | _ => 0) +
  (if 3 ≤ m ∧ isLeapYear y then 1 else 0)

/-- Days strictly before year `y` counted from the start of year 1. -/
def daysBeforeYear (y : ℕ) : ℕ :=
  365 * (y - 1) + (y - 1) / 4 - (y - 1) / 100 + (y - 1) / 400

/-- Seconds of the civil datetime `(y, m, d, h, mi, s)` with `1 ≤ d`. -/
def civilSecs (y m d h mi s : ℕ) : ℤ :=
  ((daysBeforeYear y + daysBeforeMonth y m + d - 1 : ℕ) : ℤ) * 86400 +
    (h : ℤ) * 3600 + (mi : ℤ) * 60 + (s : ℤ)

/-- Seconds of a `GoTime`. -/
def GoTime.toSecs (t : GoTime) : ℤ :=
  civilSecs t.year t.month t.day t.hour t.minute t.second

/-- Embedding of Go `time.Date(y, mRaw, d, h, mi, s, 0, loc)` for
`mRaw ≥ 1` and `d ∈ {0, 1, ...}`: the month is normalized first
(`year += (m-1)/12; m = (m-1)%12 + 1`) and the day is added afterwards,
so day 0 denotes the day before the first of the normalized month. -/
def goDateSecs (y mRaw d h mi s : ℕ) : ℤ :=
  let y' := y + (mRaw - 1) / 12
  let m' := (mRaw - 1) % 12 + 1
  (((daysBeforeYear y' + daysBeforeMonth y' m' : ℕ) : ℤ) + (d : ℤ) - 1) * 86400 +
    (h : ℤ) * 3600 + (mi : ℤ) * 60 + (s : ℤ)

/-- The expiry-date computation at the top of `AddQuotaForStrategy`:
`endOfMonth := time.Date(y, month+1, 0, 23, 59, 59, 0, loc)`; if
`endOfMonth.Sub(now).Hours() < 24*30` the expiry is
`time.Date(y, month+2, 0, 23, 59, 59, 0, loc)`, else `endOfMonth`
(the duration comparison is exact at second precision). -/
def strategyExpirySecs (now : GoTime) : ℤ :=
  let endOfMonth := goDateSecs now.year (now.month + 1) 0 23 59 59
  if endOfMonth - now.toSecs < 30 * 24 * 3600 then
    goDateSecs now.year (now.month + 2) 0 23 59 59
  else endOfMonth

/-- End of month `(y, m)` at `23:59:59` (the spec's "end of month"). -/
def endOfMonthSpec (y m : ℕ) : ℤ := civilSecs y m (daysInMonth y m) 23 59 59

/-- Successor month in the calendar. -/
def nextMonth (y m : ℕ) : ℕ × ℕ := if m = 12 then (y + 1, 1) else (y, m + 1)

/-- Modelled from the spec's words for C8: if `now` is within 30 days of
the end of the current month, use end-of-next-month, else
end-of-current-month, at 23:59:59 second precision. -/
def specExpirySecs (now : GoTime) : ℤ :=
  let eom := endOfMonthSpec now.year now.month
  if eom - now.toSecs < 30 * 24 * 3600 then
    endOfMonthSpec (nextMonth now.year now.month).1 (nextMonth now.year now.month).2
  else eom

/-! ### C9 / C10: permission settings

The quota-check and star-check permission services keep separate setting
tables with identical shapes; both are embedded.  `auth_users` and
`employee_department` are environment tables; Higress notification and
audit insertion outcomes are oracles. -/

/-- A `models.UserInfo` row of `auth_users` (fields the services read). -/
structure UserInfo where
  id : String
  employeeNumber : String
deriving DecidableEq, Repr

/-- A `models.EmployeeDepartment` row; `deptFullLevelNames` is
`GetDeptFullLevelNamesAsSlice()`, root first, leaf last. -/
structure EmployeeDepartment where
  employeeNumber : String
  deptFullLevelNames : List String
deriving DecidableEq, Repr

/-- A `models.QuotaCheckSetting` row. -/
structure QuotaCheckSetting where
  id : ℤ
  targetType : String
  targetIdentifier : String
  enabled : Bool
deriving DecidableEq, Repr

/-- A `models.StarCheckSetting` row. -/
structure StarCheckSetting where
  id : ℤ
  targetType : String
  targetIdentifier : String
  enabled : Bool
deriving DecidableEq, Repr

/-- A `models.EffectiveQuotaCheckSetting` row. -/
structure EffectiveQuotaCheckSetting where
  userID : String
  enabled : Bool
  settingID : Option ℤ
deriving DecidableEq, Repr

/-- A `models.EffectiveStarCheckSetting` row. -/
structure EffectiveStarCheckSetting where
  userID : String
  enabled : Bool
  settingID : Option ℤ
deriving DecidableEq, Repr

/-- A `models.PermissionAudit` row (fields the services write). -/
structure PermissionAudit where
  operation : String
  targetType : String
  targetIdentifier : String
deriving DecidableEq, Repr

/-- `First` on the quota-check setting table by `(target_type, target_identifier)`. -/
def findQuotaCheckSetting (settings : List QuotaCheckSetting) (targetType targetIdentifier : String) :
    Option QuotaCheckSetting :=
  settings.find? (fun s => s.targetType == targetType && s.targetIdentifier == targetIdentifier)

/-- `First` on the star-check setting table by `(target_type, target_identifier)`. -/
def findStarCheckSetting (settings : List StarCheckSetting) (targetType targetIdentifier : String) :
    Option StarCheckSetting :=
  settings.find? (fun s => s.targetType == targetType && s.targetIdentifier == targetIdentifier)

/-- Embedding of `calculateEffectiveQuotaCheckSetting`: the user setting
wins; else the department loop `for i := len-1; i >= 0; i--` (realized as a
scan of the reversed list) takes the first hit; else disabled with no
source. -/
def calculateEffectiveQuotaCheckSetting (settings : List QuotaCheckSetting)
    (userID : String) (departments : List String) : Bool × Option ℤ :=
  match findQuotaCheckSetting settings TargetTypeUser userID with
  | some userSetting => (userSetting.enabled, some userSetting.id)
  | none =>
    match departments.reverse.findSome?
        (fun d => findQuotaCheckSetting settings TargetTypeDepartment d) with
    | some deptSetting => (deptSetting.enabled, some deptSetting.id)
    | none => (false, none)

/-- Embedding of `calculateEffectiveStarCheckSetting`. -/
def calculateEffectiveStarCheckSetting (settings : List StarCheckSetting)
    (userID : String) (departments : List String) : Bool × Option ℤ :=
  match findStarCheckSetting settings TargetTypeUser userID with
  | some userSetting => (userSetting.enabled, some userSetting.id)
  | none =>
    match departments.reverse.findSome?
        (fun d => findStarCheckSetting settings TargetTypeDepartment d) with
    | some deptSetting => (deptSetting.enabled, some deptSetting.id)
    | none => (false, none)

/-- Oracle environment shared by the two permission services. -/
structure PermEnv where
  authUsers : List UserInfo
  employees : List EmployeeDepartment
  saveSettingOk : Bool
  createSettingOk : Bool
  nextSettingID : ℤ
  saveEffectiveOk : Bool
  createEffectiveOk : Bool
  createAuditOk : Bool

/-- State of the quota-check permission service. -/
structure QuotaPermState where
  settings : List QuotaCheckSetting
  effective : List EffectiveQuotaCheckSetting
  audits : List PermissionAudit
  higressCalls : List (String × Bool)

/-- State of the star-check permission service. -/
structure StarPermState where
  settings : List StarCheckSetting
  effective : List EffectiveStarCheckSetting
  audits : List PermissionAudit
  higressCalls : List (String × Bool)

/-- `recordAudit` of the quota-check service: `Create` failure is only
logged. -/
def quotaRecordAudit (env : PermEnv) (st : QuotaPermState)
    (operation targetType targetIdentifier : String) : QuotaPermState :=
  if env.createAuditOk then
    { st with audits := st.audits ++ [⟨operation, targetType, targetIdentifier⟩] }
  else st

/-- `recordAudit` of the star-check service. -/
def starRecordAudit (env : PermEnv) (st : StarPermState)
    (operation targetType targetIdentifier : String) : StarPermState :=
  if env.createAuditOk then
    { st with audits := st.audits ++ [⟨operation, targetType, targetIdentifier⟩] }
  else st

/-- Embedding of `UpdateEmployeeQuotaCheckPermissions`: recompute the
effective setting of one employee, save or create the effective row,
notify Higress when required, and record an audit. -/
def UpdateEmployeeQuotaCheckPermissions (env : PermEnv) (st : QuotaPermState)
    (employeeNumber : String) : Except String Unit × QuotaPermState :=
  match env.authUsers.find? (fun u => u.employeeNumber == employeeNumber) with
  | none => (.ok (), st)
  | some user =>
    let userID := user.id
    let departments :=
      match env.employees.find? (fun e => e.employeeNumber == employeeNumber) with
      | none => []
      | some employee => employee.deptFullLevelNames
    let existing := st.effective.find? (fun e => e.userID == userID)
    let currentEnabled := match existing with | some e => e.enabled | none => false
    let calcRes := calculateEffectiveQuotaCheckSetting st.settings userID departments
    let newEnabled := calcRes.1
    let settingID := calcRes.2
    let settingChanged := currentEnabled ≠ newEnabled
    let isNewUser := existing.isNone
    let hasNewSetting := settingID.isSome
    match existing with
    | some _ =>
      if ¬ env.saveEffectiveOk then (.error "failed to update effective quota check setting", st)
      else
        let st1 := { st with effective := st.effective.map (fun e =>
          if e.userID == userID then { e with enabled := newEnabled, settingID := settingID }
          else e) }
        let st2 :=
          if ¬ isNewUser ∧ settingChanged then
            { st1 with higressCalls := st1.higressCalls ++ [(userID, newEnabled)] }
          else st1
        (.ok (), quotaRecordAudit env st2 "quota_check_setting_update" TargetTypeUser employeeNumber)
    | none =>
      if ¬ env.createEffectiveOk then (.error "failed to create effective quota check setting", st)
      else
        let st1 := { st with effective := st.effective ++ [⟨userID, newEnabled, settingID⟩] }
        let st2 :=
          if isNewUser ∧ hasNewSetting then
            { st1 with higressCalls := st1.higressCalls ++ [(userID, newEnabled)] }
          else st1
        (.ok (), quotaRecordAudit env st2 "quota_check_setting_update" TargetTypeUser employeeNumber)

/-- Embedding of `UpdateEmployeeStarCheckPermissions`. -/
def UpdateEmployeeStarCheckPermissions (env : PermEnv) (st : StarPermState)
    (employeeNumber : String) : Except String Unit × StarPermState :=
  match env.authUsers.find? (fun u => u.employeeNumber == employeeNumber) with
  | none => (.ok (), st)
  | some user =>
    let userID := user.id
    let departments :=
      match env.employees.find? (fun e => e.employeeNumber == employeeNumber) with
      | none => []
      | some employee => employee.deptFullLevelNames
    let existing := st.effective.find? (fun e => e.userID == userID)
    let currentEnabled := match existing with | some e => e.enabled | none => false
    let calcRes := calculateEffectiveStarCheckSetting st.settings userID departments
    let newEnabled := calcRes.1
    let settingID := calcRes.2
    let settingChanged := currentEnabled ≠ newEnabled
    let isNewUser := existing.isNone
    let hasNewSetting := settingID.isSome
    match existing with
    | some _ =>
      if ¬ env.saveEffectiveOk then (.error "failed to update effective star check setting", st)
      else
        let st1 := { st with effective := st.effective.map (fun e =>
          if e.userID == userID then { e with enabled := newEnabled, settingID := settingID }
          else e) }
        let st2 :=
          if ¬ isNewUser ∧ settingChanged then
            { st1 with higressCalls := st1.higressCalls ++ [(userID, newEnabled)] }
          else st1
        (.ok (), starRecordAudit env st2 "star_check_setting_update" TargetTypeUser employeeNumber)
    | none =>
      if ¬ env.createEffectiveOk then (.error "failed to create effective star check setting", st)
      else
        let st1 := { st with effective := st.effective ++ [⟨userID, newEnabled, settingID⟩] }
        let st2 :=
          if isNewUser ∧ hasNewSetting then
            { st1 with higressCalls := st1.higressCalls ++ [(userID, newEnabled)] }
          else st1
        (.ok (), starRecordAudit env st2 "star_check_setting_update" TargetTypeUser employeeNumber)

/-- Embedding of `SetUserQuotaCheckSetting`: unknown user fails; an
existing user-level setting with the same value returns nil at once and
touches nothing; otherwise the setting is saved or created, the employee's
effective setting is recomputed (its error only logged) and an audit is
recorded. -/
def SetUserQuotaCheckSetting (env : PermEnv) (st : QuotaPermState)
    (userID : String) (enabled : Bool) : Except String Unit × QuotaPermState :=
  match env.authUsers.find? (fun u => u.id == userID) with
  | none => (.error "user not found", st)
  | some user =>
    match findQuotaCheckSetting st.settings TargetTypeUser userID with
    | some setting =>
      if setting.enabled = enabled then (.ok (), st)
      else if ¬ env.saveSettingOk then (.error "update quota check setting", st)
      else
        let st1 := { st with settings := st.settings.map (fun s =>
          if s.id == setting.id then { s with enabled := enabled } else s) }
        let st2 := (UpdateEmployeeQuotaCheckPermissions env st1 user.employeeNumber).2
        (.ok (), quotaRecordAudit env st2 "quota_check_set" TargetTypeUser userID)
    | none =>
      if ¬ env.createSettingOk then (.error "create quota check setting", st)
      else
        let st1 := { st with settings := st.settings ++
          [⟨env.nextSettingID, TargetTypeUser, userID, enabled⟩] }
        let st2 := (UpdateEmployeeQuotaCheckPermissions env st1 user.employeeNumber).2
        (.ok (), quotaRecordAudit env st2 "quota_check_set" TargetTypeUser userID)

/-- Embedding of `SetUserStarCheckSetting`. -/
def SetUserStarCheckSetting (env : PermEnv) (st : StarPermState)
    (userID : String) (enabled : Bool) : Except String Unit × StarPermState :=
  match env.authUsers.find? (fun u => u.id == userID) with
  | none => (.error "user not found", st)
  | some user =>
    match findStarCheckSetting st.settings TargetTypeUser userID with
    | some setting =>
      if setting.enabled = enabled then (.ok (), st)
      else if ¬ env.saveSettingOk then (.error "update star check setting", st)
      else
        let st1 := { st with settings := st.settings.map (fun s =>
          if s.id == setting.id then { s with enabled := enabled } else s) }
        let st2 := (UpdateEmployeeStarCheckPermissions env st1 user.employeeNumber).2
        (.ok (), starRecordAudit env st2 "star_check_set" TargetTypeUser userID)
    | none =>
      if ¬ env.createSettingOk then (.error "create star check setting", st)
      else
        let st1 := { st with settings := st.settings ++
          [⟨env.nextSettingID, TargetTypeUser, userID, enabled⟩] }
        let st2 := (UpdateEmployeeStarCheckPermissions env st1 user.employeeNumber).2
        (.ok (), starRecordAudit env st2 "star_check_set" TargetTypeUser userID)

/-! ### Support predicate for the TransferOut validation claim -/

/-- A requested item passes both availability checks of `TransferOut`. -/
def itemPassesChecks (giverID : String) (avail : ℤ → Option ℚ) (quotas : List Quota)
    (item : TransferQuotaItem) : Prop :=
  ∃ a, avail item.expiryDate = some a ∧ item.amount ≤ a ∧
    item.amount ≤ totalQuotaAt giverID item.expiryDate quotas

/-- The status the C6 claim prescribes, in the claim's own order of cases. -/
def claimC6Status (succ total : ℕ) : String :=
  if succ = total then TransferStatusSuccess
  else if succ = 0 then TransferStatusFailed
  else TransferStatusPartSuccess

/-! ### Concrete instances used by the closed theorems below -/

/-- C1 witness lots: two VALID lots of one user, expiries ascending. -/
def lotsW1 : List Quota := [⟨"u", 100, 100, StatusValid⟩, ⟨"u", 50, 200, StatusValid⟩]

/-- C2 counterexample state: one VALID unexpired lot, nonzero gateway used. -/
def cexExpireState : ExpireState :=
  ⟨[⟨"u", 40, 100, StatusValid⟩], fun _ => 40, fun _ => 30⟩

/-- C2 witness state: one lot already past expiry, one not. -/
def wExpireState : ExpireState :=
  ⟨[⟨"u", 40, 10, StatusValid⟩, ⟨"u", 60, 100, StatusValid⟩], fun _ => 100, fun _ => 30⟩

/-- C3 witness voucher payload. -/
def vdC3 : VoucherData := ⟨"g1", "Giver One", "13800000000", "giver-gh", "", "r1", [⟨5, 100⟩]⟩

/-- C3 witness environment: the code was already redeemed by another user. -/
def envC3 : TransferInEnv :=
  ⟨fun c => if c = "voucher-code-0001" then some vdC3 else none,
   [("voucher-code-0001", "other-user")], [], true, fun _ => true, fun _ => true,
   true, true, true, 0⟩

/-- C3 witness receiver. -/
def recvC3 : AuthUser := ⟨"r1", "Receiver", "", ""⟩

/-- C5 witness environment: star check off, gateway used 0. -/
def envW5 : TransferOutEnv :=
  ⟨true, 0, false, "", "", some "voucher-code-0002", fun _ => true, fun _ => true,
   true, true, true⟩

/-- C5 witness giver. -/
def giverW5 : AuthUser := ⟨"g", "Giver", "", ""⟩

/-- C5 witness state: the giver owns one VALID lot at expiry 100. -/
def stW5 : TransferOutState := ⟨[⟨"g", 50, 100, StatusValid⟩], [], fun _ => 100⟩

/-- C5 witness request: asks for expiry 200, which matches no lot. -/
def reqW5 : TransferOutRequest := ⟨"r", [⟨10, 200⟩]⟩

/-- C6 counterexample voucher payload: an empty item list. -/
def vdC6 : VoucherData := ⟨"g", "Giver", "555", "gh", "", "r", []⟩

/-- C6 counterexample environment. -/
def envC6 : TransferInEnv :=
  ⟨fun c => if c = "voucher-code-0003" then some vdC6 else none,
   [], [], true, fun _ => true, fun _ => true, true, true, true, 0⟩

/-- C6 counterexample receiver and request. -/
def recvC6 : AuthUser := ⟨"r", "Receiver", "", ""⟩

/-- C6 counterexample request. -/
def reqC6 : TransferInRequest := ⟨"voucher-code-0003"⟩

/-- C6 witness voucher payload: one expired and one valid item. -/
def vdW6 : VoucherData := ⟨"g", "Giver", "555", "gh", "", "r", [⟨10, -5⟩, ⟨20, 100⟩]⟩

/-- C6 witness environment (`now = 0`, so expiry `-5` is past). -/
def envW6 : TransferInEnv :=
  ⟨fun c => if c = "voucher-code-0004" then some vdW6 else none,
   [], [], true, fun _ => true, fun _ => true, true, true, true, 0⟩

/-- C6 witness request. -/
def reqW6 : TransferInRequest := ⟨"voucher-code-0004"⟩

/-- C7 witness lots: two VALID duplicates of one `(user, expiry)` key. -/
def lotsW7 : List Quota := [⟨"u", 10, 100, StatusValid⟩, ⟨"u", 20, 100, StatusValid⟩]

/-- C8 witness instant. -/
def tW8 : GoTime := ⟨2025, 3, 15, 10, 0, 0⟩

/-- C9 witness quota-check settings: a single department setting. -/
def qsW9 : List QuotaCheckSetting := [⟨1, TargetTypeDepartment, "d2", true⟩]

/-- C9 witness star-check settings. -/
def ssW9 : List StarCheckSetting := [⟨1, TargetTypeDepartment, "d2", true⟩]

/-- C10 witness environment: one auth user. -/
def envW10 : PermEnv := ⟨[⟨"u1", "e1"⟩], [], true, true, 7, true, true, true⟩

/-- C10 witness quota-check state: `u1` already set to `true`. -/
def qstW10 : QuotaPermState := ⟨[⟨3, TargetTypeUser, "u1", true⟩], [], [], []⟩

/-- C10 witness star-check state. -/
def sstW10 : StarPermState := ⟨[⟨4, TargetTypeUser, "u1", true⟩], [], [], []⟩

/-! ## Theorems -/

/-! ### C1 -/

theorem quotaListView_eq_specNetAvailableView :
    ∀ (l : List Quota) (d : ℚ), 0 ≤ d → (∀ q ∈ l, 0 < q.amount) →
      quotaListView d l = specNetAvailableView d l := by
  intro l
  induction l with
  | nil => intro d _ _; rfl
  | cons q qs ih =>
    intro d hd hp
    have hq : 0 < q.amount := hp q (by simp)
    have hqs : ∀ r ∈ qs, 0 < r.amount := fun r hr => hp r (by simp [hr])
    by_cases h1 : d ≤ 0
    · have hd0 : d = 0 := le_antisymm h1 hd
      subst hd0
      rw [quotaListView, specNetAvailableView]
      rw [if_pos le_rfl, if_pos (by simpa using hq)]
      have e1 : max 0 (q.amount - 0) = q.amount := by
        rw [sub_zero]; exact max_eq_right hq.le
      have e2 : max 0 (0 - q.amount) = 0 := by
        rw [zero_sub]; exact max_eq_left (by linarith)
      rw [e1, e2, ih 0 le_rfl hqs]
    · push_neg at h1
      by_cases h2 : q.amount > d
      · rw [quotaListView, specNetAvailableView]
        rw [if_neg (not_le.2 h1), if_pos h2, if_pos (by simp; linarith)]
        have e1 : max 0 (q.amount - d) = q.amount - d := max_eq_right (by linarith)
        have e2 : max 0 (d - q.amount) = 0 := max_eq_left (by linarith)
        rw [e1, e2, ih 0 le_rfl hqs]
      · push_neg at h2
        rw [quotaListView, specNetAvailableView]
        rw [if_neg (not_le.2 h1), if_neg (not_lt.2 h2),
          if_neg (by simp; linarith)]
        have e2 : max 0 (d - q.amount) = d - q.amount := max_eq_right (by linarith)
        rw [e2, ih (d - q.amount) (by linarith) hqs]

/-- C1: for every gateway total `t`, gateway used `u ≥ 0`, and list of the
user's VALID lots ordered by expiry ascending (all with positive amounts),
`GetUserQuota` returns `{total = t, used = u, lots}` where `lots` is the
spec's FIFO-by-expiry net-available view: each lot is emitted with remaining
amount `max 0 (amount - debt consumed by earlier lots)` and fully consumed
lots are omitted. -/
theorem getUserQuota_netAvailable_view (t u : ℚ) (lots : List Quota)
    (hu : 0 ≤ u)
    (hvalid : ∀ q ∈ lots, q.status = StatusValid)
    (hsorted : List.Chain' (fun a b => a.expiryDate ≤ b.expiryDate) lots)
    (hpos : ∀ q ∈ lots, 0 < q.amount) :
    GetUserQuota (some t) (some u) lots = some ⟨t, u, specNetAvailableView u lots⟩ := by
  show some (⟨t, u, quotaListView u lots⟩ : QuotaInfo) = _
  rw [quotaListView_eq_specNetAvailableView lots u hu hpos]

theorem getUserQuota_netAvailable_view_witness :
    GetUserQuota (some 150) (some 20) lotsW1 = some ⟨150, 20, specNetAvailableView 20 lotsW1⟩ :=
  getUserQuota_netAvailable_view 150 20 lotsW1 (by norm_num) (by decide)
    (by norm_num [lotsW1, List.chain'_cons]) (by decide)

/-! ### C2 -/

theorem expireUserStep_quotas (st : ExpireState) (u : String) :
    (expireUserStep st u).quotas = st.quotas := rfl

theorem expire_foldl_quotas (L : List String) (st : ExpireState) :
    (L.foldl expireUserStep st).quotas = st.quotas := by
  induction L generalizing st with
  | nil => rfl
  | cons a L ih => rw [List.foldl_cons, ih, expireUserStep_quotas]

theorem expire_foldl_not_mem (L : List String) (st : ExpireState) (u : String) (hu : u ∉ L) :
    (L.foldl expireUserStep st).gwUsed u = st.gwUsed u ∧
    (L.foldl expireUserStep st).gwTotal u = st.gwTotal u := by
  induction L generalizing st with
  | nil => exact ⟨rfl, rfl⟩
  | cons a L ih =>
    have hne : u ≠ a := fun h => hu (by simp [h])
    have hnm : u ∉ L := fun h => hu (by simp [h])
    rw [List.foldl_cons]
    obtain ⟨h1, h2⟩ := ih (expireUserStep st a) hnm
    refine ⟨?_, ?_⟩
    · rw [h1]; simp [expireUserStep, hne]
    · rw [h2]; simp [expireUserStep, hne]

theorem expire_foldl_mem (L : List String) (st : ExpireState) (u : String)
    (hnd : L.Nodup) (hu : u ∈ L) :
    (L.foldl expireUserStep st).gwUsed u = 0 ∧
    (L.foldl expireUserStep st).gwTotal u = validSumFor u st.quotas := by
  induction L generalizing st with
  | nil => cases hu
  | cons a L ih =>
    rw [List.nodup_cons] at hnd
    rw [List.foldl_cons]
    by_cases h : u = a
    · subst h
      obtain ⟨h1, h2⟩ := expire_foldl_not_mem L (expireUserStep st u) u hnd.1
      refine ⟨?_, ?_⟩
      · rw [h1]; simp [expireUserStep]
      · rw [h2]; simp [expireUserStep]
    · have hm : u ∈ L := by rcases List.mem_cons.1 hu with h' | h'; exact absurd h' h; exact h'
      obtain ⟨h1, h2⟩ := ih (expireUserStep st a) hnd.2 hm
      exact ⟨h1, by rw [h2, expireUserStep_quotas]⟩

/-- C2 counterexample: the claim quantifies over *every* user, but
`ExpireQuotas` returns untouched when no lot is expired; a user whose
gateway used counter is 30 keeps it. -/
theorem expireQuotas_claim_false :
    ¬ (∀ (now : ℤ) (st : ExpireState) (u : String),
        (ExpireQuotas now st).gwTotal u = validSumFor u (ExpireQuotas now st).quotas ∧
        (ExpireQuotas now st).gwUsed u = 0) := by
  intro h
  have h2 := (h 50 cexExpireState "u").2
  have he : (ExpireQuotas 50 cexExpireState).gwUsed "u" = 30 := rfl
  rw [he] at h2
  norm_num at h2

/-- C2 (amended): after `ExpireQuotas` completes without error, every user
who had at least one lot expired by this sweep has gateway total equal to
the sum of that user's remaining VALID lots and gateway used equal to 0. -/
theorem expireQuotas_reconciles_affected_users (now : ℤ) (st : ExpireState) (u : String)
    (hu : ∃ q ∈ st.quotas, q.userID = u ∧ q.status = StatusValid ∧ q.expiryDate < now) :
    (ExpireQuotas now st).gwUsed u = 0 ∧
    (ExpireQuotas now st).gwTotal u = validSumFor u (ExpireQuotas now st).quotas := by
  obtain ⟨q, hq, hqu, hqs, hqe⟩ := hu
  have hexp : isExpiredLot now q = true := by
    simp [isExpiredLot, hqs, hqe]
  have hmem : q ∈ st.quotas.filter (isExpiredLot now) := List.mem_filter.2 ⟨hq, hexp⟩
  have hne : (st.quotas.filter (isExpiredLot now)).isEmpty = false := by
    rcases hl : st.quotas.filter (isExpiredLot now) with _ | ⟨a, l⟩
    · rw [hl] at hmem; cases hmem
    · rfl
  simp only [ExpireQuotas, hne, Bool.false_eq_true, if_false]
  set L := ((st.quotas.filter (isExpiredLot now)).map (fun q => q.userID)).dedup with hL
  have humem : u ∈ L := by
    rw [hL, List.mem_dedup]
    exact List.mem_map.2 ⟨q, hmem, hqu⟩
  have hnd : L.Nodup := List.nodup_dedup _
  obtain ⟨h1, h2⟩ := expire_foldl_mem L _ u hnd humem
  refine ⟨h1, ?_⟩
  rw [h2, expire_foldl_quotas]

theorem expireQuotas_reconciles_affected_users_witness :
    (ExpireQuotas 50 wExpireState).gwUsed "u" = 0 ∧
    (ExpireQuotas 50 wExpireState).gwTotal "u" =
      validSumFor "u" (ExpireQuotas 50 wExpireState).quotas :=
  expireQuotas_reconciles_affected_users 50 wExpireState "u"
    ⟨⟨"u", 40, 10, StatusValid⟩, by decide, rfl, rfl, by decide⟩

/-! ### C3 -/

/-- C3: whenever a `VoucherRedemption` row with the voucher's code is
already present (so the unique-constraint insert would fail, regardless of
which receiver recorded it), `TransferIn` returns `ALREADY_REDEEMED` with
the giver identity fields decoded from the voucher. -/
theorem transferIn_alreadyRedeemed_on_duplicate (env : TransferInEnv) (receiver : AuthUser)
    (req : TransferInRequest) (vd : VoucherData)
    (hdec : env.decodeVoucher req.voucherCode = some vd)
    (hrecv : vd.receiverID = receiver.id)
    (hdup : ∃ r ∈ env.redemptions, r.1 = req.voucherCode) :
    TransferIn env receiver req = .ok
      { giverID := vd.giverID, giverName := vd.giverName, giverPhone := vd.giverPhone,
        giverGithub := vd.giverGithub, receiverID := receiver.id,
        voucherCode := req.voucherCode, operation := OperationTransferIn,
        status := TransferStatusAlreadyRedeemed,
        message := "Voucher has already been redeemed" } := by
  obtain ⟨r, hr, hrc⟩ := hdup
  have hany : env.redemptions.any (fun p => p.1 == req.voucherCode) = true :=
    List.any_eq_true.2 ⟨r, hr, by simp [hrc]⟩
  simp [TransferIn, hdec, hrecv, hany]

theorem transferIn_alreadyRedeemed_on_duplicate_witness :
    TransferIn envC3 recvC3 ⟨"voucher-code-0001"⟩ = .ok
      { giverID := vdC3.giverID, giverName := vdC3.giverName, giverPhone := vdC3.giverPhone,
        giverGithub := vdC3.giverGithub, receiverID := recvC3.id,
        voucherCode := "voucher-code-0001", operation := OperationTransferIn,
        status := TransferStatusAlreadyRedeemed,
        message := "Voucher has already been redeemed" } :=
  transferIn_alreadyRedeemed_on_duplicate envC3 recvC3 ⟨"voucher-code-0001"⟩ vdC3
    (by decide) rfl ⟨("voucher-code-0001", "other-user"), by decide, rfl⟩

/-! ### C4 -/

theorem string_append_ne_empty (a b : String) (hb : b ≠ "") : a ++ b ≠ "" := by
  intro h
  apply hb
  have hd := congrArg String.data h
  rw [String.data_append] at hd
  exact String.ext (List.append_eq_nil.1 hd).2

set_option maxHeartbeats 2000000 in
/-- C4: for every input (any voucher code, any receiver, any storage or
gateway outcome), `TransferIn` never returns an error value: it always
returns a well-formed response whose status is one of SUCCESS,
PARTIAL_SUCCESS, FAILED or ALREADY_REDEEMED, with a nonempty
human-readable message. -/
theorem transferIn_always_wellformed_response (env : TransferInEnv) (receiver : AuthUser)
    (req : TransferInRequest) :
    ∃ resp, TransferIn env receiver req = .ok resp ∧
      (resp.status = TransferStatusSuccess ∨ resp.status = TransferStatusPartSuccess ∨
       resp.status = TransferStatusFailed ∨ resp.status = TransferStatusAlreadyRedeemed) ∧
      resp.message ≠ "" := by
  cases hdec : env.decodeVoucher req.voucherCode with
  | none =>
    have h : TransferIn env receiver req =
        .ok { status := TransferStatusFailed, message := "Invalid voucher code" } := by
      simp [TransferIn, hdec]
    exact ⟨_, h, Or.inr (Or.inr (Or.inl rfl)), by decide⟩
  | some vd =>
    simp only [TransferIn, hdec]
    split_ifs
    all_goals refine ⟨_, rfl, ?_, ?_⟩
    all_goals first
      | (left; rfl)
      | (right; left; rfl)
      | (right; right; left; rfl)
      | (right; right; right; rfl)
      | (apply string_append_ne_empty; decide)
      | simp

/-! ### C6 -/

/-- C6 counterexample: a decodable voucher with an empty item list passes
the redemption step with `successCount = totalItems = 0`; the claim's first
case prescribes SUCCESS, but the code's `successCount == 0` branch fires
first and returns FAILED. -/
theorem transferIn_status_claim_false :
    respStatus (TransferIn envC6 recvC6 reqC6) ≠
      claimC6Status (transferInLoop envC6 recvC6.id vdC6.quotaList).successCount
        vdC6.quotaList.length := by
  have h1 : respStatus (TransferIn envC6 recvC6 reqC6) = TransferStatusFailed := rfl
  have h2 : claimC6Status (transferInLoop envC6 recvC6.id vdC6.quotaList).successCount
      vdC6.quotaList.length = TransferStatusSuccess := rfl
  rw [h1, h2]
  decide

/-- C6 (amended): for every voucher processed past the redemption step
whose audit and gateway steps succeed, the status is FAILED when
`successCount = 0`, SUCCESS when `successCount = totalItems` (and some item
succeeded), and PARTIAL_SUCCESS otherwise. -/
theorem transferIn_status_mapping (env : TransferInEnv) (receiver : AuthUser)
    (req : TransferInRequest) (vd : VoucherData)
    (hdec : env.decodeVoucher req.voucherCode = some vd)
    (hrecv : vd.receiverID = receiver.id)
    (hnew : ∀ r ∈ env.redemptions, r.1 ≠ req.voucherCode)
    (hcr : env.createRedemptionOk = true)
    (hm : env.marshalOk = true) (ha : env.createAuditOk = true) (hg : env.gatewayOk = true) :
    respStatus (TransferIn env receiver req) =
      (if (transferInLoop env receiver.id vd.quotaList).successCount = 0 then
        TransferStatusFailed
       else if (transferInLoop env receiver.id vd.quotaList).successCount =
           vd.quotaList.length then TransferStatusSuccess
       else TransferStatusPartSuccess) := by
  have hany : env.redemptions.any (fun p => p.1 == req.voucherCode) = false := by
    rw [List.any_eq_false]
    intro r hr
    simpa using hnew r hr
  simp only [TransferIn, hdec, hrecv, hany, hcr, hm, ha, hg, ne_eq, not_true_eq_false,
    if_false, Bool.false_eq_true, not_false_eq_true, and_false, ite_false]
  by_cases h0 : (transferInLoop env receiver.id vd.quotaList).successCount = 0
  · simp [respStatus, h0]
  · by_cases h1 : (transferInLoop env receiver.id vd.quotaList).successCount =
        vd.quotaList.length
    · simp [respStatus, h0, h1]
    · by_cases h2 : 0 < expiredCountOf (transferInLoop env receiver.id vd.quotaList).results <;>
        simp [respStatus, h0, h1, h2]

theorem transferIn_status_mapping_witness :
    respStatus (TransferIn envW6 recvC6 reqW6) =
      (if (transferInLoop envW6 recvC6.id vdW6.quotaList).successCount = 0 then
        TransferStatusFailed
       else if (transferInLoop envW6 recvC6.id vdW6.quotaList).successCount =
           vdW6.quotaList.length then TransferStatusSuccess
       else TransferStatusPartSuccess) :=
  transferIn_status_mapping envW6 recvC6 reqW6 vdW6 (by decide) rfl
    (by intro r hr; cases hr) rfl rfl rfl rfl

/-! ### C5 -/

theorem mem_insertByExpiry (q r : Quota) (l : List Quota) :
    r ∈ insertByExpiry q l ↔ r = q ∨ r ∈ l := by
  induction l with
  | nil => simp [insertByExpiry]
  | cons a l ih =>
    unfold insertByExpiry
    split_ifs with h
    · simp
    · rw [List.mem_cons, ih, List.mem_cons]
      tauto

theorem mem_sortByExpiry (l : List Quota) (q : Quota) : q ∈ sortByExpiry l ↔ q ∈ l := by
  induction l with
  | nil => simp [sortByExpiry]
  | cons a l ih =>
    show q ∈ insertByExpiry a (sortByExpiry l) ↔ _
    rw [mem_insertByExpiry, ih, List.mem_cons]

theorem availStep_isSome (acc : (ℤ → Option ℚ) × ℚ) (q : Quota) (k : ℤ) :
    (((availStep acc q).1) k).isSome = true ↔ k = q.expiryDate ∨ ((acc.1 k).isSome = true) := by
  unfold availStep
  by_cases h : k = q.expiryDate <;> simp [h]

theorem foldl_avail_isSome (l : List Quota) (acc : (ℤ → Option ℚ) × ℚ) (k : ℤ) :
    (((l.foldl availStep acc).1) k).isSome = true ↔
      ((acc.1 k).isSome = true) ∨ ∃ q ∈ l, q.expiryDate = k := by
  induction l generalizing acc with
  | nil => simp
  | cons q l ih =>
    rw [List.foldl_cons, ih, availStep_isSome]
    constructor
    · rintro (h | h)
      · rcases h with h | h
        · exact Or.inr ⟨q, by simp, h.symm⟩
        · exact Or.inl h
      · obtain ⟨r, hr, hrk⟩ := h
        exact Or.inr ⟨r, by simp [hr], hrk⟩
    · rintro (h | ⟨r, hr, hrk⟩)
      · exact Or.inl (Or.inr h)
      · rcases List.mem_cons.1 hr with h' | h'
        · subst h'; exact Or.inl (Or.inl hrk.symm)
        · exact Or.inr ⟨r, h', hrk⟩

theorem availMapOf_isSome (env : TransferOutEnv) (giverID : String) (st : TransferOutState)
    (k : ℤ) :
    ((availMapOf env giverID st k).isSome = true) ↔
      ∃ q ∈ st.quotas, q.userID = giverID ∧ q.status = StatusValid ∧ q.expiryDate = k := by
  unfold availMapOf quotaAvailabilityMap
  rw [foldl_avail_isSome]
  simp only [Option.isSome_none, Bool.false_eq_true, false_or]
  constructor
  · rintro ⟨q, hq, hk⟩
    rw [giverValidQuotas, mem_sortByExpiry, List.mem_filter] at hq
    obtain ⟨hmem, hp⟩ := hq
    simp only [Bool.and_eq_true, beq_iff_eq] at hp
    exact ⟨q, hmem, hp.1, hp.2, hk⟩
  · rintro ⟨q, hq, h1, h2, h3⟩
    refine ⟨q, ?_, h3⟩
    rw [giverValidQuotas, mem_sortByExpiry, List.mem_filter]
    exact ⟨hq, by simp [h1, h2]⟩

theorem validateQuotaList_fails_of_mem (giverID : String) (avail : ℤ → Option ℚ)
    (quotas : List Quota) (items : List TransferQuotaItem) (item : TransferQuotaItem)
    (hmem : item ∈ items) (hfail : avail item.expiryDate = none) :
    ∃ e, validateQuotaList giverID avail quotas items = some e := by
  induction items with
  | nil => cases hmem
  | cons a rest ih =>
    cases hA : avail a.expiryDate with
    | none => exact ⟨.quotaNotFound a.expiryDate, by simp only [validateQuotaList, hA]⟩
    | some v =>
      simp only [validateQuotaList, hA]
      split_ifs with hv ht
      · exact ⟨_, rfl⟩
      · exact ⟨_, rfl⟩
      · have hrest : item ∈ rest := by
          rcases List.mem_cons.1 hmem with h' | h'
          · subst h'; rw [hA] at hfail; cases hfail
          · exact h'
        exact ih hrest

theorem validateQuotaList_append_pass (giverID : String) (avail : ℤ → Option ℚ)
    (quotas : List Quota) (pre rest : List TransferQuotaItem)
    (hpre : ∀ j ∈ pre, itemPassesChecks giverID avail quotas j) :
    validateQuotaList giverID avail quotas (pre ++ rest) =
      validateQuotaList giverID avail quotas rest := by
  induction pre with
  | nil => rfl
  | cons j pre ih =>
    obtain ⟨a, ha, h1, h2⟩ := hpre j (by simp)
    rw [List.cons_append]
    simp only [validateQuotaList, ha]
    rw [if_neg (not_lt.2 h1), if_neg (not_lt.2 h2)]
    exact ih (fun i hi => hpre i (by simp [hi]))

theorem transferOut_error_of_validate (env : TransferOutEnv) (giver : AuthUser)
    (req : TransferOutRequest) (st : TransferOutState) (e : TransferOutErr)
    (h1 : req.receiverID ≠ "") (h2 : env.getUsedOk = true)
    (h3 : ¬ (env.githubStarCheckEnabled = true ∧ ¬ starCheckPassed env = true))
    (hv : validateQuotaList giver.id (availMapOf env giver.id st) st.quotas req.quotaList =
      some e) :
    TransferOut env giver req st = (.error e, st) := by
  simp [TransferOut, h1, h2, hv]
  intro ha hb
  exact absurd ⟨ha, by simp [hb]⟩ h3

/-- C5: for every TransferOut request (nonempty receiver, gateway used read
succeeding, star check passing): a requested item whose expiry date matches
no VALID lot of the giver by exact timestamp equality makes the call fail —
and with a not-found error for that expiry date when every earlier item
passes the checks; an item whose amount exceeds the FIFO-computed
availability at its expiry date makes the call fail with an
insufficient-quota error reporting the available and requested amounts; in
either failure the state (lots, audit records, gateway counters) is
returned unchanged. -/
theorem transferOut_validation_failures (env : TransferOutEnv) (giver : AuthUser)
    (req : TransferOutRequest) (st : TransferOutState)
    (hrecv : req.receiverID ≠ "") (hused : env.getUsedOk = true)
    (hstar : env.githubStarCheckEnabled = false ∨ starCheckPassed env = true) :
    ((∃ item ∈ req.quotaList, ¬ ∃ q ∈ st.quotas, q.userID = giver.id ∧
        q.status = StatusValid ∧ q.expiryDate = item.expiryDate) →
      ∃ e, TransferOut env giver req st = (.error e, st)) ∧
    (∀ pre item post, req.quotaList = pre ++ item :: post →
      (∀ j ∈ pre, itemPassesChecks giver.id (availMapOf env giver.id st) st.quotas j) →
      (¬ ∃ q ∈ st.quotas, q.userID = giver.id ∧ q.status = StatusValid ∧
        q.expiryDate = item.expiryDate) →
      TransferOut env giver req st = (.error (.quotaNotFound item.expiryDate), st)) ∧
    (∀ pre item post a, req.quotaList = pre ++ item :: post →
      (∀ j ∈ pre, itemPassesChecks giver.id (availMapOf env giver.id st) st.quotas j) →
      availMapOf env giver.id st item.expiryDate = some a → a < item.amount →
      TransferOut env giver req st =
        (.error (.insufficientAvailable item.expiryDate a item.amount), st)) := by
  have hstar' : ¬ (env.githubStarCheckEnabled = true ∧ ¬ starCheckPassed env = true) := by
    rcases hstar with h | h <;> simp [h]
  refine ⟨?_, ?_, ?_⟩
  · rintro ⟨item, hmem, hno⟩
    have hnone : availMapOf env giver.id st item.expiryDate = none := by
      rw [← Option.not_isSome_iff_eq_none]
      intro hs
      exact hno ((availMapOf_isSome env giver.id st item.expiryDate).1 hs)
    obtain ⟨e, he⟩ :=
      validateQuotaList_fails_of_mem giver.id _ st.quotas req.quotaList item hmem hnone
    exact ⟨e, transferOut_error_of_validate env giver req st e hrecv hused hstar' he⟩
  · intro pre item post hsplit hpre hno
    have hnone : availMapOf env giver.id st item.expiryDate = none := by
      rw [← Option.not_isSome_iff_eq_none]
      intro hs
      exact hno ((availMapOf_isSome env giver.id st item.expiryDate).1 hs)
    refine transferOut_error_of_validate env giver req st _ hrecv hused hstar' ?_
    rw [hsplit, validateQuotaList_append_pass giver.id _ st.quotas pre _ hpre]
    simp only [validateQuotaList, hnone]
  · intro pre item post a hsplit hpre hsome hlt
    refine transferOut_error_of_validate env giver req st _ hrecv hused hstar' ?_
    rw [hsplit, validateQuotaList_append_pass giver.id _ st.quotas pre _ hpre]
    simp only [validateQuotaList, hsome]
    rw [if_pos hlt]

theorem transferOut_validation_failures_witness :
    TransferOut envW5 giverW5 reqW5 stW5 = (.error (.quotaNotFound 200), stW5) :=
  (transferOut_validation_failures envW5 giverW5 reqW5 stW5 (by decide) rfl
      (Or.inl rfl)).2.1 [] ⟨10, 200⟩ [] rfl (by intro j hj; cases hj) (by decide)

/-! ### C7 -/

theorem quotaKey_mk (k : String × ℤ × String) (a : ℚ) :
    quotaKey ⟨k.1, a, k.2.1, k.2.2⟩ = k := rfl

theorem keyCount_append (l₁ l₂ : List Quota) (k : String × ℤ × String) :
    keyCount (l₁ ++ l₂) k = keyCount l₁ k + keyCount l₂ k := by
  simp [keyCount, List.filter_append]

theorem keySum_append (l₁ l₂ : List Quota) (k : String × ℤ × String) :
    keySum (l₁ ++ l₂) k = keySum l₁ k + keySum l₂ k := by
  simp [keySum, List.filter_append]

theorem filter_key_of_self (l : List Quota) (k : String × ℤ × String) :
    (l.filter (fun q => quotaKey q ≠ k)).filter (fun q => quotaKey q = k) = [] := by
  rw [List.filter_comm]
  rw [List.filter_eq_nil_iff.2]
  intro q hq
  rw [List.mem_filter] at hq
  have hk : quotaKey q = k := by simpa using hq.2
  simp [hk]

theorem filter_key_of_ne (l : List Quota) (k k' : String × ℤ × String) (h : k' ≠ k) :
    (l.filter (fun q => quotaKey q ≠ k)).filter (fun q => quotaKey q = k') =
      l.filter (fun q => quotaKey q = k') := by
  rw [List.filter_comm]
  apply List.filter_eq_self.2
  intro q hq
  rw [List.mem_filter] at hq
  have hk : quotaKey q = k' := by simpa using hq.2
  simp [hk, h]

theorem keyCount_filter_ne_self (l : List Quota) (k : String × ℤ × String) :
    keyCount (l.filter (fun q => quotaKey q ≠ k)) k = 0 := by
  unfold keyCount
  rw [filter_key_of_self]
  rfl

theorem keySum_filter_ne_self (l : List Quota) (k : String × ℤ × String) :
    keySum (l.filter (fun q => quotaKey q ≠ k)) k = 0 := by
  unfold keySum
  rw [filter_key_of_self]
  rfl

theorem keyCount_filter_ne_other (l : List Quota) (k k' : String × ℤ × String) (h : k' ≠ k) :
    keyCount (l.filter (fun q => quotaKey q ≠ k)) k' = keyCount l k' := by
  unfold keyCount
  rw [filter_key_of_ne l k k' h]

theorem keySum_filter_ne_other (l : List Quota) (k k' : String × ℤ × String) (h : k' ≠ k) :
    keySum (l.filter (fun q => quotaKey q ≠ k)) k' = keySum l k' := by
  unfold keySum
  rw [filter_key_of_ne l k k' h]

theorem mergeGroupStep_count_self (orig cur : List Quota) (k : String × ℤ × String) :
    keyCount (mergeGroupStep orig cur k) k = if 0 < keySum orig k then 1 else 0 := by
  unfold mergeGroupStep
  split_ifs with h
  · rw [keyCount_append, keyCount_filter_ne_self]
    simp [keyCount, List.filter, quotaKey_mk]
  · rw [keyCount_filter_ne_self]

theorem mergeGroupStep_sum_self (orig cur : List Quota) (k : String × ℤ × String) :
    keySum (mergeGroupStep orig cur k) k =
      if 0 < keySum orig k then keySum orig k else 0 := by
  unfold mergeGroupStep
  split_ifs with h
  · rw [keySum_append, keySum_filter_ne_self]
    simp [keySum, List.filter, quotaKey_mk]
  · rw [keySum_filter_ne_self]

theorem mergeGroupStep_count_other (orig cur : List Quota) (k k' : String × ℤ × String)
    (h : k' ≠ k) :
    keyCount (mergeGroupStep orig cur k) k' = keyCount cur k' := by
  have h2 : quotaKey ⟨k.1, keySum orig k, k.2.1, k.2.2⟩ ≠ k' := by
    rw [quotaKey_mk]
    exact fun he => h he.symm
  unfold mergeGroupStep
  split_ifs with hp
  · rw [keyCount_append, keyCount_filter_ne_other cur k k' h]
    simp [keyCount, List.filter_cons, h2]
  · exact keyCount_filter_ne_other cur k k' h

theorem mergeGroupStep_sum_other (orig cur : List Quota) (k k' : String × ℤ × String)
    (h : k' ≠ k) :
    keySum (mergeGroupStep orig cur k) k' = keySum cur k' := by
  have h2 : quotaKey ⟨k.1, keySum orig k, k.2.1, k.2.2⟩ ≠ k' := by
    rw [quotaKey_mk]
    exact fun he => h he.symm
  have h3 : ∀ x : Quota, quotaKey x ≠ k' → keySum [x] k' = 0 := by
    intro x hx
    unfold keySum
    simp [List.filter_cons, hx]
  unfold mergeGroupStep
  split_ifs with hp
  · rw [keySum_append, keySum_filter_ne_other cur k k' h, h3 _ h2, add_zero]
  · exact keySum_filter_ne_other cur k k' h

theorem merge_fold_not_mem (orig : List Quota) (L : List (String × ℤ × String))
    (cur : List Quota) (k : String × ℤ × String) (hk : k ∉ L) :
    keyCount (L.foldl (mergeGroupStep orig) cur) k = keyCount cur k ∧
    keySum (L.foldl (mergeGroupStep orig) cur) k = keySum cur k := by
  induction L generalizing cur with
  | nil => exact ⟨rfl, rfl⟩
  | cons a L ih =>
    have hne : k ≠ a := fun h => hk (by simp [h])
    have hnm : k ∉ L := fun h => hk (by simp [h])
    rw [List.foldl_cons]
    obtain ⟨h1, h2⟩ := ih (mergeGroupStep orig cur a) hnm
    exact ⟨by rw [h1, mergeGroupStep_count_other orig cur a k hne],
           by rw [h2, mergeGroupStep_sum_other orig cur a k hne]⟩

theorem merge_fold_mem (orig : List Quota) (L : List (String × ℤ × String))
    (cur : List Quota) (k : String × ℤ × String) (hnd : L.Nodup) (hk : k ∈ L) :
    keyCount (L.foldl (mergeGroupStep orig) cur) k = (if 0 < keySum orig k then 1 else 0) ∧
    keySum (L.foldl (mergeGroupStep orig) cur) k =
      (if 0 < keySum orig k then keySum orig k else 0) := by
  induction L generalizing cur with
  | nil => cases hk
  | cons a L ih =>
    rw [List.nodup_cons] at hnd
    rw [List.foldl_cons]
    by_cases h : k = a
    · subst h
      obtain ⟨h1, h2⟩ := merge_fold_not_mem orig L (mergeGroupStep orig cur k) k hnd.1
      exact ⟨by rw [h1, mergeGroupStep_count_self],
             by rw [h2, mergeGroupStep_sum_self]⟩
    · have hm : k ∈ L := by
        rcases List.mem_cons.1 hk with h' | h'
        · exact absurd h' h
        · exact h'
      exact ih (mergeGroupStep orig cur a) hnd.2 hm

theorem pos_count_mem_keys (lots : List Quota) (k : String × ℤ × String)
    (h : 0 < keyCount lots k) : k ∈ (lots.map quotaKey).dedup := by
  rw [List.mem_dedup]
  unfold keyCount at h
  rw [List.length_pos] at h
  obtain ⟨q, hq⟩ := List.exists_mem_of_ne_nil _ h
  rw [List.mem_filter] at hq
  have := of_decide_eq_true hq.2
  exact List.mem_map.2 ⟨q, hq.1, this⟩

/-- C7: after `MergeQuotaRecords` completes (all lot amounts positive, as
invariant P1 guarantees), no two VALID lots share `(userId, expiryDate)`,
and for every merged group (a `(userId, expiryDate, status)` key with more
than one lot) the sum of amounts is preserved. -/
theorem mergeQuotaRecords_dedup_and_sum (lots : List Quota)
    (hpos : ∀ q ∈ lots, 0 < q.amount) :
    (∀ u e, keyCount (MergeQuotaRecords lots) (u, e, StatusValid) ≤ 1) ∧
    (∀ k, 1 < keyCount lots k → keySum (MergeQuotaRecords lots) k = keySum lots k) := by
  have hnd : (dupKeys lots).Nodup := List.Nodup.filter _ (List.nodup_dedup _)
  constructor
  · intro u e
    by_cases hk : (u, e, StatusValid) ∈ dupKeys lots
    · have h := (merge_fold_mem lots (dupKeys lots) lots (u, e, StatusValid) hnd hk).1
      unfold MergeQuotaRecords
      rw [h]
      split_ifs <;> omega
    · have h := (merge_fold_not_mem lots (dupKeys lots) lots (u, e, StatusValid) hk).1
      unfold MergeQuotaRecords
      rw [h]
      by_cases hc : 0 < keyCount lots (u, e, StatusValid)
      · have hmem := pos_count_mem_keys lots (u, e, StatusValid) hc
        have : ¬ 1 < keyCount lots (u, e, StatusValid) := by
          intro hgt
          exact hk (List.mem_filter.2 ⟨hmem, by simpa using hgt⟩)
        omega
      · omega
  · intro k hk1
    have hmem : k ∈ dupKeys lots :=
      List.mem_filter.2 ⟨pos_count_mem_keys lots k (by omega), by simpa using hk1⟩
    have hsum : 0 < keySum lots k := by
      unfold keySum
      apply List.sum_pos
      · intro a ha
        rw [List.mem_map] at ha
        obtain ⟨q, hq, rfl⟩ := ha
        exact hpos q (List.mem_filter.1 hq).1
      · unfold keyCount at hk1
        intro hnil
        rw [List.map_eq_nil_iff] at hnil
        rw [hnil] at hk1
        simp at hk1
    have h := (merge_fold_mem lots (dupKeys lots) lots k hnd hmem).2
    unfold MergeQuotaRecords
    rw [h, if_pos hsum]

theorem mergeQuotaRecords_dedup_and_sum_witness :
    keyCount (MergeQuotaRecords lotsW7) ("u", 100, StatusValid) ≤ 1 ∧
    keySum (MergeQuotaRecords lotsW7) ("u", 100, StatusValid) =
      keySum lotsW7 ("u", 100, StatusValid) :=
  ⟨(mergeQuotaRecords_dedup_and_sum lotsW7 (by decide)).1 "u" 100,
   (mergeQuotaRecords_dedup_and_sum lotsW7 (by decide)).2 ("u", 100, StatusValid) (by decide)⟩

/-! ### C8 -/

theorem daysBeforeYear_succ (y : ℕ) (hy : 1 ≤ y) :
    daysBeforeYear (y + 1) = daysBeforeYear y + 365 + (if isLeapYear y then 1 else 0) := by
  unfold daysBeforeYear isLeapYear
  obtain ⟨x, rfl⟩ : ∃ x, y = x + 1 := ⟨y - 1, by omega⟩
  simp only [Nat.add_sub_cancel]
  rw [Nat.succ_div, Nat.succ_div, Nat.succ_div]
  have h1 : x / 100 ≤ x / 4 := Nat.div_le_div_left (by norm_num) (by norm_num)
  split_ifs <;> omega

theorem dBM_add_dim (y k : ℕ) (hk1 : 1 ≤ k) (hk11 : k ≤ 11) :
    daysBeforeMonth y k + daysInMonth y k = daysBeforeMonth y (k + 1) := by
  interval_cases k <;> by_cases hl : isLeapYear y <;>
    simp [daysBeforeMonth, daysInMonth, hl]

theorem dBY_dBM_12 (y : ℕ) (hy : 1 ≤ y) :
    daysBeforeYear y + daysBeforeMonth y 12 + daysInMonth y 12 = daysBeforeYear (y + 1) := by
  rw [daysBeforeYear_succ y hy]
  by_cases hl : isLeapYear y <;> simp [daysBeforeMonth, daysInMonth, hl] <;> omega

theorem daysBeforeYear_pos (y : ℕ) (hy : 1 ≤ y) : 1 ≤ daysBeforeYear (y + 1) := by
  unfold daysBeforeYear
  simp only [Nat.add_sub_cancel]
  have h1 : y / 100 ≤ y / 4 := Nat.div_le_div_left (by norm_num) (by norm_num)
  omega

theorem goDate_day0_eq_endOfMonth (y k : ℕ) (hy : 1 ≤ y) (hk1 : 1 ≤ k) (hk12 : k ≤ 12)
    (h mi s : ℕ) :
    goDateSecs y (k + 1) 0 h mi s = civilSecs y k (daysInMonth y k) h mi s := by
  have hdim : 1 ≤ daysInMonth y k := by
    interval_cases k <;> simp [daysInMonth] <;> split_ifs <;> omega
  by_cases hk : k = 12
  · subst hk
    have e1 : (12 + 1 - 1) / 12 = 1 := by norm_num
    have e2 : (12 + 1 - 1) % 12 + 1 = 1 := by norm_num
    simp only [goDateSecs, civilSecs, e1, e2, Nat.cast_zero]
    have hm1 : daysBeforeMonth (y + 1) 1 = 0 := by simp [daysBeforeMonth]
    have hB : daysBeforeYear y + daysBeforeMonth y 12 + daysInMonth y 12 =
        daysBeforeYear (y + 1) + daysBeforeMonth (y + 1) 1 := by
      have h12 := dBY_dBM_12 y hy
      omega
    have hpos : 1 ≤ daysBeforeYear y + daysBeforeMonth y 12 + daysInMonth y 12 := by omega
    rw [← hB]
    have hc : ((daysBeforeYear y + daysBeforeMonth y 12 + daysInMonth y 12 - 1 : ℕ) : ℤ) =
        ((daysBeforeYear y + daysBeforeMonth y 12 + daysInMonth y 12 : ℕ) : ℤ) - 1 := by
      omega
    rw [hc]
    ring
  · have hk11 : k ≤ 11 := by omega
    have e1 : (k + 1 - 1) / 12 = 0 := by omega
    have e2 : (k + 1 - 1) % 12 + 1 = k + 1 := by omega
    simp only [goDateSecs, civilSecs, e1, e2, Nat.add_zero, Nat.cast_zero]
    have hB : daysBeforeYear y + daysBeforeMonth y (k + 1) =
        daysBeforeYear y + daysBeforeMonth y k + daysInMonth y k := by
      have := dBM_add_dim y k hk1 hk11
      omega
    rw [hB]
    have hpos : 1 ≤ daysBeforeYear y + daysBeforeMonth y k + daysInMonth y k := by omega
    have hc : ((daysBeforeYear y + daysBeforeMonth y k + daysInMonth y k - 1 : ℕ) : ℤ) =
        ((daysBeforeYear y + daysBeforeMonth y k + daysInMonth y k : ℕ) : ℤ) - 1 := by
      omega
    rw [hc]
    ring

theorem goDate_fourteen_shift (y : ℕ) (h mi s : ℕ) :
    goDateSecs y 14 0 h mi s = goDateSecs (y + 1) 2 0 h mi s := rfl

/-- C8: for every call time `now` (a valid proleptic-Gregorian civil instant),
`AddQuotaForStrategy` computes the new lot's expiry by the end-of-month rule:
if `now` is within 30 days of the end of the current month the expiry is the
end of the next month, else the end of the current month, at 23:59:59,
second precision. -/
theorem addQuotaForStrategy_expiry_rule (now : GoTime) (hy : 1 ≤ now.year)
    (hm1 : 1 ≤ now.month) (hm12 : now.month ≤ 12) :
    strategyExpirySecs now = specExpirySecs now := by
  have h1 : goDateSecs now.year (now.month + 1) 0 23 59 59 = endOfMonthSpec now.year now.month :=
    goDate_day0_eq_endOfMonth now.year now.month hy hm1 hm12 23 59 59
  have h2 : goDateSecs now.year (now.month + 2) 0 23 59 59 =
      endOfMonthSpec (nextMonth now.year now.month).1 (nextMonth now.year now.month).2 := by
    by_cases h : now.month = 12
    · rw [h]
      show goDateSecs now.year 14 0 23 59 59 = _
      rw [goDate_fourteen_shift]
      have := goDate_day0_eq_endOfMonth (now.year + 1) 1 (by omega) (by omega) (by omega) 23 59 59
      rw [show (1 + 1 : ℕ) = 2 from rfl] at this
      rw [this]
      simp [nextMonth, h, endOfMonthSpec]
    · have hle : now.month + 1 ≤ 12 := by omega
      have := goDate_day0_eq_endOfMonth now.year (now.month + 1) hy (by omega) hle 23 59 59
      rw [show now.month + 1 + 1 = now.month + 2 from rfl] at this
      rw [this]
      simp [nextMonth, h, endOfMonthSpec]
  simp only [strategyExpirySecs, specExpirySecs]
  rw [h1, h2]

theorem addQuotaForStrategy_expiry_rule_witness :
    strategyExpirySecs tW8 = specExpirySecs tW8 :=
  addQuotaForStrategy_expiry_rule tW8 (by decide) (by decide) (by decide)

/-! ### C9 -/

/-- C9: the projected effective setting of a user with department path
`pre ++ d :: post` (root to leaf) is: the user-level setting's enabled value
with that setting as source when one exists; otherwise the first department
hit scanning from the most specific to the most general (here `d`, given
that every more specific department in `post` has no setting); otherwise
`false` with no source.  The same holds for both the quota-check and the
star-check families. -/
theorem effective_setting_projection (qsettings : List QuotaCheckSetting)
    (ssettings : List StarCheckSetting) (userID : String) (departments : List String) :
    ((∀ s, findQuotaCheckSetting qsettings TargetTypeUser userID = some s →
      calculateEffectiveQuotaCheckSetting qsettings userID departments =
        (s.enabled, some s.id)) ∧
     (findQuotaCheckSetting qsettings TargetTypeUser userID = none →
      ∀ pre d post s, departments = pre ++ d :: post →
        findQuotaCheckSetting qsettings TargetTypeDepartment d = some s →
        (∀ d' ∈ post, findQuotaCheckSetting qsettings TargetTypeDepartment d' = none) →
        calculateEffectiveQuotaCheckSetting qsettings userID departments =
          (s.enabled, some s.id)) ∧
     (findQuotaCheckSetting qsettings TargetTypeUser userID = none →
      (∀ d ∈ departments, findQuotaCheckSetting qsettings TargetTypeDepartment d = none) →
      calculateEffectiveQuotaCheckSetting qsettings userID departments = (false, none))) ∧
    ((∀ s, findStarCheckSetting ssettings TargetTypeUser userID = some s →
      calculateEffectiveStarCheckSetting ssettings userID departments =
        (s.enabled, some s.id)) ∧
     (findStarCheckSetting ssettings TargetTypeUser userID = none →
      ∀ pre d post s, departments = pre ++ d :: post →
        findStarCheckSetting ssettings TargetTypeDepartment d = some s →
        (∀ d' ∈ post, findStarCheckSetting ssettings TargetTypeDepartment d' = none) →
        calculateEffectiveStarCheckSetting ssettings userID departments =
          (s.enabled, some s.id)) ∧
     (findStarCheckSetting ssettings TargetTypeUser userID = none →
      (∀ d ∈ departments, findStarCheckSetting ssettings TargetTypeDepartment d = none) →
      calculateEffectiveStarCheckSetting ssettings userID departments = (false, none))) := by
  refine ⟨⟨?_, ?_, ?_⟩, ?_, ?_, ?_⟩
  · intro s hs
    simp [calculateEffectiveQuotaCheckSetting, hs]
  · intro hnone pre d post s hsplit hd hpost
    have hrev : (departments.reverse.findSome?
        (fun d => findQuotaCheckSetting qsettings TargetTypeDepartment d)) = some s := by
      rw [hsplit, List.reverse_append, List.reverse_cons, List.append_assoc,
        List.findSome?_append]
      have hpostnone : (post.reverse.findSome?
          (fun d => findQuotaCheckSetting qsettings TargetTypeDepartment d)) = none := by
        rw [List.findSome?_eq_none_iff]
        intro x hx
        exact hpost x (List.mem_reverse.1 hx)
      rw [hpostnone, Option.none_or, List.findSome?_append, List.findSome?_cons, hd]
      rfl
    simp [calculateEffectiveQuotaCheckSetting, hnone, hrev]
  · intro hnone hall
    have hrev : (departments.reverse.findSome?
        (fun d => findQuotaCheckSetting qsettings TargetTypeDepartment d)) = none := by
      rw [List.findSome?_eq_none_iff]
      intro x hx
      exact hall x (List.mem_reverse.1 hx)
    simp [calculateEffectiveQuotaCheckSetting, hnone, hrev]
  · intro s hs
    simp [calculateEffectiveStarCheckSetting, hs]
  · intro hnone pre d post s hsplit hd hpost
    have hrev : (departments.reverse.findSome?
        (fun d => findStarCheckSetting ssettings TargetTypeDepartment d)) = some s := by
      rw [hsplit, List.reverse_append, List.reverse_cons, List.append_assoc,
        List.findSome?_append]
      have hpostnone : (post.reverse.findSome?
          (fun d => findStarCheckSetting ssettings TargetTypeDepartment d)) = none := by
        rw [List.findSome?_eq_none_iff]
        intro x hx
        exact hpost x (List.mem_reverse.1 hx)
      rw [hpostnone, Option.none_or, List.findSome?_append, List.findSome?_cons, hd]
      rfl
    simp [calculateEffectiveStarCheckSetting, hnone, hrev]
  · intro hnone hall
    have hrev : (departments.reverse.findSome?
        (fun d => findStarCheckSetting ssettings TargetTypeDepartment d)) = none := by
      rw [List.findSome?_eq_none_iff]
      intro x hx
      exact hall x (List.mem_reverse.1 hx)
    simp [calculateEffectiveStarCheckSetting, hnone, hrev]

theorem effective_setting_projection_witness :
    calculateEffectiveQuotaCheckSetting qsW9 "u1" ["d1", "d2"] = (true, some 1) ∧
    calculateEffectiveStarCheckSetting ssW9 "u1" ["d1", "d2"] = (true, some 1) :=
  ⟨(effective_setting_projection qsW9 ssW9 "u1" ["d1", "d2"]).1.2.1 (by decide)
      ["d1"] "d2" [] ⟨1, TargetTypeDepartment, "d2", true⟩ rfl (by decide)
      (by intro d hd; cases hd),
   (effective_setting_projection qsW9 ssW9 "u1" ["d1", "d2"]).2.2.1 (by decide)
      ["d1"] "d2" [] ⟨1, TargetTypeDepartment, "d2", true⟩ rfl (by decide)
      (by intro d hd; cases hd)⟩

/-! ### C10 -/

/-- C10: setting a user-level permission setting is idempotent.  For a user
that exists and already has a user-level quota-check (resp. star-check)
setting with enabled value `v`, a further call to `SetUserQuotaCheckSetting`
(resp. `SetUserStarCheckSetting`) with the same `v` returns nil and leaves
the whole state unchanged: no setting write, no effective-setting
reprojection, no gateway notification, no audit row. -/
theorem setUserSetting_idempotent (env : PermEnv) (qst : QuotaPermState)
    (sst : StarPermState) (userID : String) (v : Bool)
    (huser : ∃ u ∈ env.authUsers, u.id = userID)
    (hq : ∃ s, findQuotaCheckSetting qst.settings TargetTypeUser userID = some s ∧
      s.enabled = v)
    (hs : ∃ s, findStarCheckSetting sst.settings TargetTypeUser userID = some s ∧
      s.enabled = v) :
    SetUserQuotaCheckSetting env qst userID v = (.ok (), qst) ∧
    SetUserStarCheckSetting env sst userID v = (.ok (), sst) := by
  obtain ⟨u, hu, hid⟩ := huser
  have hfind : ∃ w, env.authUsers.find? (fun x => x.id == userID) = some w := by
    have : (env.authUsers.find? (fun x => x.id == userID)).isSome = true := by
      rw [List.find?_isSome]
      exact ⟨u, hu, by simp [hid]⟩
    exact Option.isSome_iff_exists.1 this
  obtain ⟨w, hw⟩ := hfind
  obtain ⟨sq, hsq, hsqv⟩ := hq
  obtain ⟨ss, hss, hssv⟩ := hs
  constructor
  · simp [SetUserQuotaCheckSetting, hw, hsq, hsqv]
  · simp [SetUserStarCheckSetting, hw, hss, hssv]

theorem setUserSetting_idempotent_witness :
    SetUserQuotaCheckSetting envW10 qstW10 "u1" true = (.ok (), qstW10) ∧
    SetUserStarCheckSetting envW10 sstW10 "u1" true = (.ok (), sstW10) :=
  setUserSetting_idempotent envW10 qstW10 sstW10 "u1" true
    ⟨⟨"u1", "e1"⟩, by decide, rfl⟩
    ⟨⟨3, TargetTypeUser, "u1", true⟩, by decide, rfl⟩
    ⟨⟨4, TargetTypeUser, "u1", true⟩, by decide, rfl⟩
